import Mathlib

/-!
Shallow embedding of the image-asset export pipeline of the `figma-extractor`
repository: the `imager` package (`pkg/imager/imager.go`) and the pipeline
orchestration (`exportImages` in the root package).

Modelling conventions:
* Go strings are Lean `String`s; rune-level work goes through `String.data`.
  Go's Unicode-aware `strings.ToLower` is modelled by the ASCII `Char.toLower`
  (the normalization then drops every character outside `[a-z0-9-]`, so the
  two agree on every character class the claims exercise).
* The `float64` scale values are modelled by `ℚ`: the pipeline only compares
  scales against `0` and `1` and formats them, never does float arithmetic.
* Network and filesystem effects (`client.GetImages`, `client.GetFileImages`,
  `http.Get`+file write, `os.MkdirAll`, `os.Rename`) are oracles collected in
  an explicit `Env` record.
* Go ranges over response maps in unspecified order and downloads entries
  concurrently, appending to mutex-guarded accumulators.  The embedding fixes
  one serialization (response-list order): this fixes only the order in which
  the accumulators grow; the properties studied are either order-insensitive
  or quantify over the serialized list.
-/

namespace FigmaExtractor

/-! ### Basic Go string helpers -/

/-- Go `strings.ReplaceAll s (string pat) (string rep)` for one-character
patterns, as used by `toKebabCase` (imager.go lines 214–215). -/
def replaceAllChar (pat rep : Char) (s : List Char) : List Char :=
  s.map fun c => if c = pat then rep else c

/-- The character class kept by the builder loop of `toKebabCase`
(imager.go lines 218–222): `a`–`z`, `0`–`9` and `-`. -/
def isKebabChar (c : Char) : Bool :=
  ('a' ≤ c && c ≤ 'z') || ('0' ≤ c && c ≤ '9') || c = '-'

/-- `toKebabCase` (imager.go lines 212–225): lowercase, spaces and
underscores to hyphens, then keep only `[a-z0-9-]`. -/
def toKebabCase (s : String) : String :=
  ⟨(replaceAllChar '_' '-' (replaceAllChar ' ' '-' (s.data.map Char.toLower))).filter
    isKebabChar⟩

/-- Embeds Go `fmt.Sprintf` with verb `%g` applied to a scale.  Exact for the
integer-valued scales the claims exercise (`2 ↦ "2"`); a non-integer scale is
rendered as `num/den` — an admitted abstraction of Go's shortest-float
rendering, on which no claim depends (only whether the suffix appears does). -/
def goFmtScale (q : ℚ) : String :=
  if q.den = 1 then toString q.num else toString q.num ++ "/" ++ toString q.den

/-- `buildFileName` (imager.go lines 191–209). -/
def buildFileName (nodeName nodeID format : String) (scale : ℚ) : String :=
  let name := if nodeName = "" then nodeID else nodeName
  let name := toKebabCase name
  let name := if name = "" then "asset" else name
  let scaleSuffix :=
    if 1 < scale ∧ format ≠ "svg" ∧ format ≠ "pdf" then
      "@" ++ goFmtScale scale ++ "x"
    else ""
  name ++ scaleSuffix ++ "." ++ format

/-- Scan of Go `path/filepath.Ext` over the reversed path: walk from the end,
stop at a path separator, return the suffix from the last dot.  `acc` holds
the characters already walked, in original order. -/
def goExtRev (acc : List Char) : List Char → List Char
  | [] => []
  | c :: rest =>
      if c = '/' then []
      else if c = '.' then c :: acc
      else goExtRev (c :: acc) rest

/-- Go `path/filepath.Ext`: the suffix beginning at the final dot in the
final path element; empty when there is no dot. -/
def filepathExt (p : String) : String :=
  ⟨goExtRev [] p.data.reverse⟩

/-- Go `strings.TrimSuffix`. -/
def trimSuffix (s suffix : String) : String :=
  if suffix.data.isSuffixOf s.data then
    ⟨s.data.take (s.data.length - suffix.data.length)⟩
  else s

/-! ### The per-call filename-collision registry

Go uses a `map[string]int` named `usedNames`; the embedding uses an
association list with Go map semantics (`setAssoc` replaces the value of an
existing key, else appends). -/

/-- Read `m[k]` with its presence bit (`v, ok := m[k]`). -/
def lookupAssoc (m : List (String × String)) (k : String) : Option String :=
  (m.find? fun e => e.1 = k).map (·.2)

/-- Read of the collision registry. -/
def lookupName (m : List (String × Nat)) (k : String) : Option Nat :=
  (m.find? fun e => e.1 = k).map (·.2)

/-- Go map assignment `m[k] = v`. -/
def setAssoc (m : List (String × Nat)) (k : String) (v : Nat) : List (String × Nat) :=
  match m with
  | [] => [(k, v)]
  | e :: rest => if e.1 = k then (k, v) :: rest else e :: setAssoc rest k v

/-- The filename-deduplication block that `ExportImages` (imager.go lines
124–134) and `ExportImageFills` (imager.go lines 277–285) both contain
verbatim: look the candidate up in the registry; on a hit, rewrite to
`base-(count+1)ext` and register the rewritten name; on a miss register the
candidate at 1.  Returns the resolved name and the updated registry. -/
def resolveFileName (usedNames : List (String × Nat)) (fileName : String) :
    String × List (String × Nat) :=
  match lookupName usedNames fileName with
  | some count =>
      let ext := filepathExt fileName
      let base := trimSuffix fileName ext
      let fileName' := base ++ "-" ++ toString (count + 1) ++ ext
      (fileName', setAssoc usedNames fileName' (count + 1))
  | none => (fileName, setAssoc usedNames fileName 1)

/-! ### The node tree and fill collection -/

/-- `figma.Paint` restricted to the fields the imager reads: the paint type
tag and, for image paints, the opaque image reference. -/
structure Paint where
  type : String
  imageRef : String
  deriving Repr, DecidableEq

/-- `figma.Node` restricted to the fields the imager reads: identifier,
display name, fill paints, export-setting count, children.  Export settings
are only ever tested for being non-empty (`len(node.ExportSettings) > 0`), so
they are carried as a count. -/
inductive Node : Type where
  | mk : String → String → List Paint → Nat → List Node → Node
  deriving Repr

def Node.id : Node → String
  | .mk i _ _ _ _ => i

def Node.name : Node → String
  | .mk _ n _ _ _ => n

def Node.fills : Node → List Paint
  | .mk _ _ f _ _ => f

def Node.exportSettingCount : Node → Nat
  | .mk _ _ _ k _ => k

def Node.children : Node → List Node
  | .mk _ _ _ _ c => c

/-- `imager.ImageFillNode`. -/
structure ImageFillNode where
  nodeID : String
  nodeName : String
  imageRef : String
  deriving Repr, DecidableEq

/-- The collection condition of the fill loop (imager.go line 237):
type `IMAGE` with a non-empty image reference. -/
def isCollectedFill (f : Paint) : Bool :=
  f.type = "IMAGE" && f.imageRef ≠ ""

/-- One node's own contribution to `collectImageFills` (imager.go lines
236–245): the loop over `node.Fills` appends one entry for the first fill
satisfying `isCollectedFill` and breaks; zero entries when none matches. -/
def nodeOwnFillEntry (n : Node) : List ImageFillNode :=
  match n.fills.find? isCollectedFill with
  | some f => [⟨n.id, n.name, f.imageRef⟩]
  | none => []

/-- `collectImageFills` (imager.go lines 235–249): own entry first, then the
depth-first walk of the children in all cases. -/
def collectImageFills : Node → List ImageFillNode
  | .mk i nm fills es children =>
      nodeOwnFillEntry (.mk i nm fills es children) ++
        (children.attach.map fun c => collectImageFills c.1).flatten
termination_by n => sizeOf n
decreasing_by
  have h := List.sizeOf_lt_of_mem c.2
  simp only [Node.mk.sizeOf_spec]
  omega

/-! ### Extension inference (`detectExtensionFromURL`)

`net/url.Parse` is an external collaborator; its `.Path` component is
modelled for the URL shapes the program meets: control characters make the
parse fail, the fragment (after `#`) is removed, the query (after the first
`?`) is removed, a leading `scheme:` is removed (after which a rest not
starting with `/` is an opaque URL with empty path), a `//authority` is
removed up to the next `/`, and a colon in the first segment of a
scheme-less relative URL makes the parse fail.  Percent-escapes are not
decoded and authority contents are not validated — admitted abstractions no
claim depends on. -/

/-- Characters rejected by `net/url` (`stringContainsCTLByte`). -/
def hasCtl (s : List Char) : Bool :=
  s.any fun c => c.toNat < 0x20 || c.toNat = 0x7f

/-- Prefix of `l` strictly before the first occurrence of `c`. -/
def takeUntil (c : Char) (l : List Char) : List Char :=
  l.takeWhile fun x => x ≠ c

/-- Characters allowed after the head of a URL scheme (`getScheme`). -/
def isSchemeChar (c : Char) : Bool :=
  c.isAlpha || c.isDigit || c = '+' || c = '-' || c = '.'

/-- Tail scan of `getScheme`: `orig` is returned whole when no scheme colon
is found before a non-scheme character or the end. -/
def splitSchemeAux (orig : List Char) : List Char → Bool × List Char
  | [] => (false, orig)
  | c :: rest =>
      if c = ':' then (true, rest)
      else if isSchemeChar c then splitSchemeAux orig rest
      else (false, orig)

/-- `getScheme` of `net/url`: `none` is the `missing protocol scheme` error
(URL starting with `:`); otherwise whether a scheme was found, and the rest
with any `scheme:` removed. -/
def splitScheme : List Char → Option (Bool × List Char)
  | [] => some (false, [])
  | c :: rest =>
      if c = ':' then none
      else if c.isAlpha then some (splitSchemeAux (c :: rest) rest)
      else some (false, c :: rest)

/-- The opaque/relative/authority handling of `net/url.Parse` once fragment,
query and scheme are split off: a scheme followed by a rest not starting in
`/` is opaque (empty path); a scheme-less rest whose first segment holds a
colon is a parse error; a `//authority` is removed up to the next `/`. -/
def pathOfRest (schemeFound : Bool) (rest : List Char) : Option (List Char) :=
  if schemeFound ∧ rest.take 1 ≠ ['/'] then some []
  else if ¬schemeFound ∧ rest.take 1 ≠ ['/'] ∧
      (rest.takeWhile fun x => x ≠ '/').contains ':' then none
  else if (schemeFound ∨ rest.take 3 ≠ ['/', '/', '/']) ∧ rest.take 2 = ['/', '/'] then
    some ((rest.drop 2).dropWhile fun x => x ≠ '/')
  else some rest

/-- The `.Path` component of `net/url.Parse`, `none` on parse error. -/
def goURLPath (raw : String) : Option String :=
  if hasCtl (takeUntil '#' raw.data) then none
  else
    match splitScheme (takeUntil '#' raw.data) with
    | none => none
    | some pr => (pathOfRest pr.1 (takeUntil '?' pr.2)).map fun p => ⟨p⟩

/-- `detectExtensionFromURL` (imager.go lines 330–340). -/
def detectExtensionFromURL (rawURL : String) : String :=
  match goURLPath rawURL with
  | none => "png"
  | some p =>
      let ext := filepathExt p
      if ext ≠ "" then ext.drop 1 else "png"

/-! ### The export pipeline state and environment -/

/-- `imager.ExportConfig`. -/
structure ExportConfig where
  format : String
  scales : List ℚ
  outputDir : String
  deriving Repr, DecidableEq

/-- `imager.ExportedAsset`. -/
structure ExportedAsset where
  nodeID : String
  nodeName : String
  fileName : String
  format : String
  scale : ℚ
  deriving Repr, DecidableEq

/-- `imager.ExportResult`; error records are carried as their messages. -/
structure ExportResult where
  assets : List ExportedAsset
  errors : List String
  unresolvedNodes : List ImageFillNode
  deriving Repr, DecidableEq

/-- The effect oracles of one pipeline run: `os.MkdirAll`, the render API
(`client.GetImages`, already including its internal retries — an `.error`
is a terminal error after retry exhaustion), the downloader (`http.Get`
plus file write, `true` on success), the bulk embedded-images API
(`client.GetFileImages`) and `os.Rename`. -/
structure Env where
  mkdirAll : String → Bool
  getImages : String → List String → String → ℚ → Except String (List (String × String))
  download : String → String → Bool
  getFileImages : String → Except String (List (String × String))
  rename : String → String → Bool

/-- `maxNodesPerRequest` (imager.go line 46). -/
def maxNodesPerRequest : Nat := 100

/-- Structural worker for `batches`; the fuel starts at the list length,
which bounds the number of slices, so the zero-fuel branch is unreachable. -/
def batchesAux : Nat → List String → List (List String)
  | _, [] => []
  | 0, _ :: _ => []
  | fuel + 1, a :: as =>
      (a :: as).take maxNodesPerRequest :: batchesAux fuel ((a :: as).drop maxNodesPerRequest)

/-- The batching loop of `ExportImages` (imager.go lines 90–95): slices of
at most `maxNodesPerRequest` ids. -/
def batches (l : List String) : List (List String) :=
  batchesAux l.length l

/-- The scale list `ExportImages` actually renders with (imager.go lines
82–86): `[1]` for `svg`/`pdf`, the caller's list otherwise. -/
def effectiveScales (config : ExportConfig) : List ℚ :=
  if config.format = "svg" ∨ config.format = "pdf" then [1] else config.scales

/-- The render-API calls `ExportImages` issues, in order: scale outer loop,
batch inner loop (imager.go lines 88–97). -/
def renderCalls (nodeIDs : List String) (scales : List ℚ) : List (List String × ℚ) :=
  (scales.map fun scale => (batches nodeIDs).map fun b => (b, scale)).flatten

/-- The mutable accumulators of one `ExportImages` / `ExportImageFills`
call: the collision registry and the mutex-guarded result lists. -/
structure RunState where
  usedNames : List (String × Nat)
  assets : List ExportedAsset
  errors : List String
  unresolved : List ImageFillNode
  deriving Repr, DecidableEq

def RunState.init : RunState := ⟨[], [], [], []⟩

/-- `filepath.Join(dir, name)` for the clean two-component joins used here. -/
def joinPath (dir name : String) : String := dir ++ "/" ++ name

/-- One entry of the download loop of `ExportImages` (imager.go lines
107–154): an empty URL is a soft error; otherwise resolve the file name
against the registry (the registry is updated before the download), then
download, recording an asset on success and a soft error on failure. -/
def processImageEntry (env : Env) (nodes : List (String × String)) (format : String)
    (scale : ℚ) (outputDir : String) (st : RunState) (entry : String × String) : RunState :=
  if entry.2 = "" then
    { st with errors := st.errors ++ ["no image URL returned for node " ++ entry.1] }
  else
    let nodeName := (lookupAssoc nodes entry.1).getD ""
    let r := resolveFileName st.usedNames (buildFileName nodeName entry.1 format scale)
    if env.download entry.2 (joinPath outputDir r.1) then
      { st with usedNames := r.2,
                assets := st.assets ++ [⟨entry.1, nodeName, r.1, format, scale⟩] }
    else
      { st with usedNames := r.2,
                errors := st.errors ++ ["failed to download " ++ nodeName] }

/-- One render-API call of `ExportImages` and the processing of its URL
table (imager.go lines 97–156): a call error is terminal for the whole
`ExportImages` call, a successful table is folded entry by entry. -/
def renderCallStep (env : Env) (fileKey : String) (nodes : List (String × String))
    (config : ExportConfig) (st : RunState) (call : List String × ℚ) :
    Except String RunState :=
  match env.getImages fileKey call.1 config.format call.2 with
  | .error e => .error ("failed to get images from Figma API: " ++ e)
  | .ok images =>
      .ok (images.foldl
        (processImageEntry env nodes config.format call.2 config.outputDir) st)

/-- `imager.ExportImages` (imager.go lines 68–161): create the output
directory, then for every effective scale and every batch call the render
API — a call error aborts the whole function — and process the returned
URL table entry by entry. -/
def exportImages (env : Env) (fileKey : String) (nodes : List (String × String))
    (config : ExportConfig) : Except String ExportResult :=
  if ¬env.mkdirAll config.outputDir then
    .error ("failed to create output directory " ++ config.outputDir)
  else
    ((renderCalls (nodes.map (·.1)) (effectiveScales config)).foldlM
        (renderCallStep env fileKey nodes config) RunState.init).map
      fun st => ⟨st.assets, st.errors, st.unresolved⟩

/-- One entry of the loop of `ExportImageFills` (imager.go lines 267–312):
an image reference absent from the bulk response or mapped to an empty URL
goes to the unresolved list; otherwise the extension is inferred from the
URL, the name resolved against the registry (before the download), and the
transfer recorded as an asset or a soft error. -/
def processFillNode (env : Env) (resp : List (String × String)) (outputDir : String)
    (st : RunState) (node : ImageFillNode) : RunState :=
  match lookupAssoc resp node.imageRef with
  | none => { st with unresolved := st.unresolved ++ [node] }
  | some url =>
      if url = "" then { st with unresolved := st.unresolved ++ [node] }
      else
        let ext := detectExtensionFromURL url
        let r := resolveFileName st.usedNames (buildFileName node.nodeName node.nodeID ext 1)
        if env.download url (joinPath outputDir r.1) then
          { st with usedNames := r.2,
                    assets := st.assets ++
                      [⟨node.nodeID, node.nodeName, r.1, (filepathExt r.1).drop 1, 1⟩] }
        else
          { st with usedNames := r.2,
                    errors := st.errors ++ ["failed to download image fill " ++ node.nodeName] }

/-- `imager.ExportImageFills` (imager.go lines 255–316). -/
def exportImageFills (env : Env) (resp : List (String × String))
    (imageFillNodes : List ImageFillNode) (config : ExportConfig) :
    Except String ExportResult :=
  if ¬env.mkdirAll config.outputDir then
    .error ("failed to create output directory " ++ config.outputDir)
  else
    let st := imageFillNodes.foldl (processFillNode env resp config.outputDir) RunState.init
    .ok ⟨st.assets, st.errors, st.unresolved⟩

/-! ### The pipeline orchestration (`exportImages` of the root package) -/

/-- `extractor.ExportedAssetInfo`. -/
structure AssetInfo where
  nodeID : String
  nodeName : String
  fileName : String
  format : String
  scale : ℚ
  isScreenshot : Bool
  deriving Repr, DecidableEq

/-- A phase appending a rendered asset to `specs.ExportedAssets` (the
`IsScreenshot` field is left false). -/
def toAssetInfo (a : ExportedAsset) : AssetInfo :=
  ⟨a.nodeID, a.nodeName, a.fileName, a.format, a.scale, false⟩

/-- Go map assignment for string values. -/
def setAssocS (m : List (String × String)) (k v : String) : List (String × String) :=
  match m with
  | [] => [(k, v)]
  | e :: rest => if e.1 = k then (k, v) :: rest else e :: setAssocS rest k v

/-- `imager.ImageFillNodesToMap` (imager.go lines 320–326). -/
def imageFillNodesToMap (nodes : List ImageFillNode) : List (String × String) :=
  nodes.foldl (fun m n => setAssocS m n.nodeID n.nodeName) []

/-- The format whitelist of the orchestration (figmaextractor.go line 262). -/
def validFormat (f : String) : Bool :=
  f = "png" || f = "svg" || f = "jpg" || f = "pdf"

/-- Phase 0's per-asset renaming to the well-known screenshot name
(figmaextractor.go lines 309–331): on rename success the asset is recorded
under the screenshot name, otherwise under its generated name; the
`IsScreenshot` flag is set either way. -/
def screenshotAssetInfo (env : Env) (imageDir screenshotName : String)
    (a : ExportedAsset) : AssetInfo :=
  if env.rename (joinPath imageDir a.fileName) (joinPath imageDir screenshotName) then
    ⟨a.nodeID, a.nodeName, screenshotName, a.format, a.scale, true⟩
  else
    ⟨a.nodeID, a.nodeName, a.fileName, a.format, a.scale, true⟩

/-- Phase 2b (figmaextractor.go lines 450–477): render the unresolved fill
nodes, minus the screenshot set, through the render API; a call failure is
logged and the manifest left as it was. -/
def phase2b (env : Env) (fileKey : String) (screenshotNodes : List (String × String))
    (config : ExportConfig) (assets : List AssetInfo)
    (unresolved : List ImageFillNode) : List AssetInfo :=
  if unresolved = [] then assets
  else
    let renderNodes := (imageFillNodesToMap unresolved).filter
      fun e => !(screenshotNodes.any fun s => s.1 = e.1)
    match exportImages env fileKey renderNodes config with
    | .error _ => assets
    | .ok r => assets ++ r.assets.map toAssetInfo

/-- Phase 0 — screenshot (figmaextractor.go lines 300–333): render the
screenshot node set at scale 1; a failure of that call only logs, leaving
the manifest empty; each rendered asset is recorded through the per-asset
rename of `screenshotAssetInfo`. -/
def phase0Assets (env : Env) (fileKey fmt imageDir : String)
    (screenshotNodes : List (String × String)) : List AssetInfo :=
  match exportImages env fileKey screenshotNodes ⟨fmt, [1], imageDir⟩ with
  | .error _ => []
  | .ok res =>
      res.assets.map (screenshotAssetInfo env imageDir ("complete_design_screenshot." ++ fmt))

/-- Phase 1 — export-flagged nodes (figmaextractor.go lines 367–388): skipped
for an empty node set; a render-call error is fatal, wrapped as
`export images: …`; successes are appended to the manifest. -/
def phase1Assets (env : Env) (fileKey : String) (config : ExportConfig)
    (exportNodes : List (String × String)) (assets0 : List AssetInfo) :
    Except String (List AssetInfo) :=
  if exportNodes = [] then .ok assets0
  else
    match exportImages env fileKey exportNodes config with
    | .error e => .error ("export images: " ++ e)
    | .ok res => .ok (assets0 ++ res.assets.map toAssetInfo)

/-- Phase 2 — embedded fills with the 2b fallback (figmaextractor.go lines
413–478): skipped when no fill survives the screenshot exclusion; a bulk
endpoint failure sends the whole set to the render fallback; an
`ExportImageFills` error is fatal, wrapped as `export image fills: …`;
otherwise its unresolved output feeds the fallback. -/
def phase2Assets (env : Env) (fileKey : String)
    (screenshotNodes : List (String × String)) (config : ExportConfig)
    (fills : List ImageFillNode) (assets1 : List AssetInfo) :
    Except String (List AssetInfo) :=
  if fills = [] then .ok assets1
  else
    match env.getFileImages fileKey with
    | .error _ => .ok (phase2b env fileKey screenshotNodes config assets1 fills)
    | .ok resp =>
        match exportImageFills env resp fills config with
        | .error e => .error ("export image fills: " ++ e)
        | .ok fillRes =>
            .ok (phase2b env fileKey screenshotNodes config
              (assets1 ++ fillRes.assets.map toAssetInfo) fillRes.unresolvedNodes)

/-- Phases 0–2b of the orchestration (`exportImages` of the root package,
figmaextractor.go lines 260–478), producing the manifest before the final
reconciliation.  The screenshot node set, the export-flagged node set and
the collected image-fill references — derived upstream from the fetched
trees — are parameters. -/
def pipelinePhases (env : Env) (fileKey : String) (format : String) (scales : List ℚ)
    (imageDir : String) (screenshotNodes exportNodes : List (String × String))
    (imageFillCandidates : List ImageFillNode) : Except String (List AssetInfo) :=
  if ¬validFormat format then
    .error ("invalid image format " ++ format)
  else if scales.any fun s => s ≤ 0 then
    .error "scale value must be positive"
  else
    match phase1Assets env fileKey ⟨format, scales, imageDir⟩ exportNodes
        (phase0Assets env fileKey format imageDir screenshotNodes) with
    | .error e => .error e
    | .ok assets1 =>
        phase2Assets env fileKey screenshotNodes ⟨format, scales, imageDir⟩
          (imageFillCandidates.filter fun f => !(screenshotNodes.any fun s => s.1 = f.nodeID))
          assets1

/-- Membership of an asset in the Phase-3 exclusion sets (figmaextractor.go
lines 482–490): node ID among the screenshot keys or node name among the
screenshot values. -/
def matchesScreenshot (screenshotNodes : List (String × String)) (a : AssetInfo) : Bool :=
  (screenshotNodes.any fun e => e.1 = a.nodeID) ||
    (screenshotNodes.any fun e => e.2 = a.nodeName)

/-- The condition under which Phase 3 drops an asset (figmaextractor.go line
490): not a screenshot and matching the screenshot set. -/
def droppedByReconcile (screenshotNodes : List (String × String)) (a : AssetInfo) : Bool :=
  !a.isScreenshot && matchesScreenshot screenshotNodes a

/-- Phase 3 — cross-phase reconciliation (figmaextractor.go lines 480–497):
with a non-empty screenshot set, remove every non-screenshot asset matching
it and delete the removed files; returns the final manifest and the deleted
paths. -/
def reconcileAssets (imageDir : String) (screenshotNodes : List (String × String))
    (assets : List AssetInfo) : List AssetInfo × List String :=
  if screenshotNodes = [] then (assets, [])
  else
    (assets.filter fun a => !droppedByReconcile screenshotNodes a,
     (assets.filter fun a => droppedByReconcile screenshotNodes a).map
       fun a => joinPath imageDir a.fileName)

/-- The whole orchestration: phases 0–2b, then — only when they did not
abort — the final reconciliation (figmaextractor.go lines 260–500). -/
def exportImagesPipeline (env : Env) (fileKey : String) (format : String)
    (scales : List ℚ) (imageDir : String)
    (screenshotNodes exportNodes : List (String × String))
    (imageFillCandidates : List ImageFillNode) :
    Except String (List AssetInfo × List String) :=
  (pipelinePhases env fileKey format scales imageDir screenshotNodes exportNodes
      imageFillCandidates).map
    (reconcileAssets imageDir screenshotNodes)

/-! ### Spec-side models and concrete instances used by witnesses -/

/-- The file-name contract as the specification words it (§4.1): fall back
to the node id for an empty name; normalize in one pass to lowercase with
spaces and underscores as hyphens, dropping every character outside
`[a-z0-9-]`; fall back to the literal `asset` for an empty normalization;
append `@scale·x` exactly when the scale exceeds 1 and the format is
neither `svg` nor `pdf`. -/
def buildFileNameSpec (nodeName nodeID format : String) (scale : ℚ) : String :=
  let base := if nodeName = "" then nodeID else nodeName
  let norm : String := ⟨(base.data.map fun c =>
      if Char.toLower c = ' ' ∨ Char.toLower c = '_' then '-' else Char.toLower c).filter
    isKebabChar⟩
  let name := if norm = "" then "asset" else norm
  let scaleSuffix :=
    if 1 < scale ∧ format ≠ "svg" ∧ format ≠ "pdf" then
      "@" ++ goFmtScale scale ++ "x"
    else ""
  name ++ scaleSuffix ++ "." ++ format

/-- An environment in which every effect succeeds and the render API
returns one non-empty URL per requested node id. -/
def envAllOk : Env where
  mkdirAll := fun _ => true
  getImages := fun _ ids _ _ => .ok (ids.map fun i => (i, "https://img.example/" ++ i))
  download := fun _ _ => true
  getFileImages := fun _ => .ok []
  rename := fun _ _ => true

/-- A node carrying two image-type fills with non-empty references. -/
def nodeTwoFills : Node := .mk "5:1" "Hero" [⟨"IMAGE", "refA"⟩, ⟨"IMAGE", "refB"⟩] 0 []

/-- A node whose only image-type fill has an empty image reference. -/
def nodeEmptyRef : Node := .mk "5:2" "Ghost" [⟨"SOLID", ""⟩, ⟨"IMAGE", ""⟩] 0 []

/-- A bulk embedded-images response holding one empty and one usable URL. -/
def fillResp : List (String × String) :=
  [("refEmpty", ""), ("refOk", "https://img.example/x.png")]

/-- A fill node whose reference resolves to the empty URL of `fillResp`. -/
def fillNodeEmpty : ImageFillNode := ⟨"9:1", "Pic", "refEmpty"⟩

/-- An environment in which the transfer of the first render URL and of the
first embedded-fill URL fails while everything else succeeds. -/
def envC10 : Env where
  mkdirAll := fun _ => true
  getImages := fun _ _ _ _ => .ok [("1", "u1"), ("2", "u2")]
  download := fun u _ => !(u = "u1" || u = "https://fills.example/a.png")
  getFileImages := fun _ =>
    .ok [("r1", "https://fills.example/a.png"), ("r2", "https://fills.example/b.png")]
  rename := fun _ _ => true

/-- Two fill nodes with the same display name and distinct references. -/
def fillN1 : ImageFillNode := ⟨"1", "Dup", "r1"⟩

def fillN2 : ImageFillNode := ⟨"2", "Dup", "r2"⟩

/-- An environment realizing the spec's partial-failure scenario: the render
batch answers with URLs for four of five nodes and an empty string for the
fifth; every transfer succeeds. -/
def envC3 : Env where
  mkdirAll := fun _ => true
  getImages := fun _ _ _ _ =>
    .ok [("1", "u1"), ("2", "u2"), ("3", "u3"), ("4", "u4"), ("5", "")]
  download := fun _ _ => true
  getFileImages := fun _ => .ok []
  rename := fun _ _ => true

/-- An environment in which both remote endpoints fail terminally (after
their internal retries) while the filesystem effects succeed. -/
def envC4 : Env where
  mkdirAll := fun _ => true
  getImages := fun _ _ _ _ => .error "boom"
  download := fun _ _ => true
  getFileImages := fun _ => .error "bulk down"
  rename := fun _ _ => true

/-! ### Helper lemmas -/

lemma lookupName_setAssoc_self (m : List (String × Nat)) (k : String) (v : Nat) :
    lookupName (setAssoc m k v) k = some v := by
  induction m with
  | nil => simp [setAssoc, lookupName]
  | cons e rest ih =>
      by_cases h : e.1 = k
      · simp [setAssoc, h, lookupName]
      · simp only [setAssoc, if_neg h]
        simpa [lookupName, List.find?_cons, h] using ih

lemma resolveFileName_fresh (m : List (String × Nat)) (c : String)
    (h : lookupName m c = none) : resolveFileName m c = (c, setAssoc m c 1) := by
  simp [resolveFileName, h]

lemma resolveFileName_hit (m : List (String × Nat)) (c : String) (k : Nat)
    (h : lookupName m c = some k) :
    resolveFileName m c =
      (trimSuffix c (filepathExt c) ++ "-" ++ toString (k + 1) ++ filepathExt c,
       setAssoc m (trimSuffix c (filepathExt c) ++ "-" ++ toString (k + 1) ++ filepathExt c)
         (k + 1)) := by
  simp [resolveFileName, h]

lemma processImageEntry_of_empty (env : Env) (nodes : List (String × String))
    (fmt : String) (sc : ℚ) (dir : String) (st : RunState) (e : String × String)
    (h : e.2 = "") :
    processImageEntry env nodes fmt sc dir st e =
      { st with errors := st.errors ++ ["no image URL returned for node " ++ e.1] } := by
  simp [processImageEntry, h]

lemma processImageEntry_of_ok (env : Env) (nodes : List (String × String))
    (fmt : String) (sc : ℚ) (dir : String) (st : RunState) (e : String × String)
    (h : ¬e.2 = "")
    (hd : env.download e.2 (joinPath dir
      (resolveFileName st.usedNames
        (buildFileName ((lookupAssoc nodes e.1).getD "") e.1 fmt sc)).1) = true) :
    processImageEntry env nodes fmt sc dir st e =
      { st with
        usedNames := (resolveFileName st.usedNames
          (buildFileName ((lookupAssoc nodes e.1).getD "") e.1 fmt sc)).2,
        assets := st.assets ++ [⟨e.1, (lookupAssoc nodes e.1).getD "",
          (resolveFileName st.usedNames
            (buildFileName ((lookupAssoc nodes e.1).getD "") e.1 fmt sc)).1, fmt, sc⟩] } := by
  simp [processImageEntry, h, hd]

lemma processImageEntry_of_fail (env : Env) (nodes : List (String × String))
    (fmt : String) (sc : ℚ) (dir : String) (st : RunState) (e : String × String)
    (h : ¬e.2 = "")
    (hd : env.download e.2 (joinPath dir
      (resolveFileName st.usedNames
        (buildFileName ((lookupAssoc nodes e.1).getD "") e.1 fmt sc)).1) = false) :
    processImageEntry env nodes fmt sc dir st e =
      { st with
        usedNames := (resolveFileName st.usedNames
          (buildFileName ((lookupAssoc nodes e.1).getD "") e.1 fmt sc)).2,
        errors := st.errors ++ ["failed to download " ++ (lookupAssoc nodes e.1).getD ""] } := by
  simp [processImageEntry, h, hd]

lemma processFillNode_of_ok (env : Env) (resp : List (String × String)) (dir : String)
    (st : RunState) (n : ImageFillNode) (u : String)
    (hl : lookupAssoc resp n.imageRef = some u) (hu : ¬u = "")
    (hd : env.download u (joinPath dir
      (resolveFileName st.usedNames
        (buildFileName n.nodeName n.nodeID (detectExtensionFromURL u) 1)).1) = true) :
    processFillNode env resp dir st n =
      { st with
        usedNames := (resolveFileName st.usedNames
          (buildFileName n.nodeName n.nodeID (detectExtensionFromURL u) 1)).2,
        assets := st.assets ++ [⟨n.nodeID, n.nodeName,
          (resolveFileName st.usedNames
            (buildFileName n.nodeName n.nodeID (detectExtensionFromURL u) 1)).1,
          (filepathExt (resolveFileName st.usedNames
            (buildFileName n.nodeName n.nodeID (detectExtensionFromURL u) 1)).1).drop 1,
          1⟩] } := by
  unfold processFillNode
  rw [hl]
  simp [hu, hd]

lemma processFillNode_of_fail (env : Env) (resp : List (String × String)) (dir : String)
    (st : RunState) (n : ImageFillNode) (u : String)
    (hl : lookupAssoc resp n.imageRef = some u) (hu : ¬u = "")
    (hd : env.download u (joinPath dir
      (resolveFileName st.usedNames
        (buildFileName n.nodeName n.nodeID (detectExtensionFromURL u) 1)).1) = false) :
    processFillNode env resp dir st n =
      { st with
        usedNames := (resolveFileName st.usedNames
          (buildFileName n.nodeName n.nodeID (detectExtensionFromURL u) 1)).2,
        errors := st.errors ++ ["failed to download image fill " ++ n.nodeName] } := by
  unfold processFillNode
  rw [hl]
  simp [hu, hd]

lemma batches_small (l : List String) (hne : l ≠ [])
    (hlen : l.length ≤ maxNodesPerRequest) : batches l = [l] := by
  cases l with
  | nil => exact absurd rfl hne
  | cons a as =>
      show batchesAux (a :: as).length (a :: as) = [a :: as]
      rw [List.length_cons]
      show (a :: as).take maxNodesPerRequest ::
        batchesAux as.length ((a :: as).drop maxNodesPerRequest) = [a :: as]
      rw [List.take_of_length_le hlen, List.drop_eq_nil_of_le hlen]
      cases as <;> rfl

lemma mem_assets_foldl_processImageEntry (env : Env) (nodes : List (String × String))
    (fmt : String) (sc : ℚ) (dir : String) :
    ∀ (images : List (String × String)) (st : RunState) (a : ExportedAsset),
      a ∈ (images.foldl (processImageEntry env nodes fmt sc dir) st).assets →
      a ∈ st.assets ∨ a.scale = sc := by
  intro images
  induction images with
  | nil => intro st a h; exact Or.inl h
  | cons e es ih =>
      intro st a h
      simp only [List.foldl_cons] at h
      rcases ih (processImageEntry env nodes fmt sc dir st e) a h with hmem | hsc
      · by_cases he : e.2 = ""
        · rw [processImageEntry_of_empty env nodes fmt sc dir st e he] at hmem
          exact Or.inl hmem
        · cases hd : env.download e.2 (joinPath dir
            (resolveFileName st.usedNames
              (buildFileName ((lookupAssoc nodes e.1).getD "") e.1 fmt sc)).1) with
          | false =>
              rw [processImageEntry_of_fail env nodes fmt sc dir st e he hd] at hmem
              exact Or.inl hmem
          | true =>
              rw [processImageEntry_of_ok env nodes fmt sc dir st e he hd] at hmem
              rcases List.mem_append.mp hmem with hmem | hmem
              · exact Or.inl hmem
              · right
                rw [List.mem_singleton.mp hmem]
      · exact Or.inr hsc

lemma foldlM_renderCalls_assets_scale (env : Env) (fk : String)
    (nodes : List (String × String)) (cfg : ExportConfig) :
    ∀ (calls : List (List String × ℚ)) (st st' : RunState),
      List.foldlM (renderCallStep env fk nodes cfg) st calls = .ok st' →
      ∀ a ∈ st'.assets, a ∈ st.assets ∨ ∃ call ∈ calls, a.scale = call.2 := by
  intro calls
  induction calls with
  | nil =>
      intro st st' h a ha
      have hst : st = st' := by
        simpa [List.foldlM_nil, pure, Except.pure] using h
      exact Or.inl (hst ▸ ha)
  | cons cl cls ih =>
      intro st st' h a ha
      rw [List.foldlM_cons] at h
      cases hcall : renderCallStep env fk nodes cfg st cl with
      | error e =>
          rw [hcall] at h
          simp [Bind.bind, Except.bind] at h
      | ok st₁ =>
          rw [hcall] at h
          simp only [Bind.bind, Except.bind] at h
          rcases ih st₁ st' h a ha with h1 | h1
          · unfold renderCallStep at hcall
            cases hg : env.getImages fk cl.1 cfg.format cl.2 with
            | error e =>
                rw [hg] at hcall
                exact absurd hcall (by simp)
            | ok images =>
                rw [hg] at hcall
                simp only [Except.ok.injEq] at hcall
                rcases mem_assets_foldl_processImageEntry env nodes cfg.format cl.2
                  cfg.outputDir images st a (hcall ▸ h1) with h2 | h2
                · exact Or.inl h2
                · exact Or.inr ⟨cl, List.mem_cons_self cl cls, h2⟩
          · obtain ⟨call, hc, hsc⟩ := h1
            exact Or.inr ⟨call, List.mem_cons_of_mem cl hc, hsc⟩

lemma foldl_processImageEntry_spec (env : Env) (nodes : List (String × String))
    (fmt : String) (sc : ℚ) (dir : String) (dl : String → Bool)
    (hdl : ∀ u d, env.download u d = dl u) :
    ∀ (images : List (String × String)) (st : RunState),
      ((images.foldl (processImageEntry env nodes fmt sc dir) st).assets.map
          fun a => a.nodeID)
        = (st.assets.map fun a => a.nodeID) ++
            ((images.filter fun e => !(e.2 = "" : Bool) && dl e.2).map fun e => e.1)
      ∧ (images.foldl (processImageEntry env nodes fmt sc dir) st).errors.length
        = st.errors.length + images.countP fun e => (e.2 = "" : Bool) || !dl e.2 := by
  intro images
  induction images with
  | nil => intro st; simp
  | cons e es ih =>
      intro st
      simp only [List.foldl_cons]
      by_cases he : e.2 = ""
      · have hst := processImageEntry_of_empty env nodes fmt sc dir st e he
        constructor
        · rw [(ih _).1, hst]
          simp [he]
        · rw [(ih _).2, hst]
          simp [he, List.countP_cons]
          omega
      · cases hdt : dl e.2 with
        | true =>
            have hd : env.download e.2 (joinPath dir
                (resolveFileName st.usedNames
                  (buildFileName ((lookupAssoc nodes e.1).getD "") e.1 fmt sc)).1) = true :=
              (hdl e.2 _).trans hdt
            have hst := processImageEntry_of_ok env nodes fmt sc dir st e he hd
            constructor
            · rw [(ih _).1, hst]
              simp [he, hdt]
            · rw [(ih _).2, hst]
              simp [he, hdt, List.countP_cons]
        | false =>
            have hd : env.download e.2 (joinPath dir
                (resolveFileName st.usedNames
                  (buildFileName ((lookupAssoc nodes e.1).getD "") e.1 fmt sc)).1) = false :=
              (hdl e.2 _).trans hdt
            have hst := processImageEntry_of_fail env nodes fmt sc dir st e he hd
            constructor
            · rw [(ih _).1, hst]
              simp [he, hdt]
            · rw [(ih _).2, hst]
              simp [he, hdt, List.countP_cons]
              omega

lemma reconcileAssets_spec (dir : String) (ss : List (String × String))
    (pre : List AssetInfo) :
    reconcileAssets dir ss pre =
      (pre.filter fun a => !droppedByReconcile ss a,
       (pre.filter fun a => droppedByReconcile ss a).map fun a => joinPath dir a.fileName) := by
  unfold reconcileAssets
  by_cases hss : ss = []
  · subst hss
    simp [droppedByReconcile, matchesScreenshot]
  · rw [if_neg hss]

lemma takeWhile_append_of_all (p : Char → Bool) (l l' : List Char)
    (h : ∀ x ∈ l, p x = true) : (l ++ l').takeWhile p = l ++ l'.takeWhile p := by
  induction l with
  | nil => simp
  | cons a as ih =>
      simp only [List.cons_append, List.takeWhile_cons, h a (by simp), if_true]
      rw [ih fun x hx => h x (by simp [hx])]

lemma takeWhile_eq_self_of_all (p : Char → Bool) (l : List Char)
    (h : ∀ x ∈ l, p x = true) : l.takeWhile p = l := by
  have := takeWhile_append_of_all p l [] h
  simpa using this

lemma takeUntil_append_cons (c : Char) (r rest : List Char) :
    takeUntil c (r ++ c :: rest) = takeUntil c r := by
  induction r with
  | nil => simp [takeUntil]
  | cons a as ih =>
      by_cases h : a = c
      · simp [takeUntil, h]
      · simpa [takeUntil, h] using ih

lemma splitSchemeAux_query (orig : List Char) (q : List Char) :
    ∀ bs : List Char,
      splitSchemeAux (orig ++ '?' :: q) (bs ++ '?' :: q) =
        ((splitSchemeAux orig bs).1, (splitSchemeAux orig bs).2 ++ '?' :: q) := by
  intro bs
  induction bs with
  | nil => simp [splitSchemeAux, isSchemeChar]
  | cons b bs' ih =>
      by_cases hb : b = ':'
      · simp [splitSchemeAux, hb]
      · by_cases hsc : isSchemeChar b
        · simpa [splitSchemeAux, hb, hsc] using ih
        · simp [splitSchemeAux, hb, hsc]

lemma splitScheme_query (b q : List Char) :
    splitScheme (b ++ '?' :: q) =
      (splitScheme b).map fun pr => (pr.1, pr.2 ++ '?' :: q) := by
  cases b with
  | nil => simp [splitScheme, isSchemeChar]
  | cons c bs =>
      by_cases hc : c = ':'
      · simp [splitScheme, hc]
      · by_cases ha : c.isAlpha
        · simp only [List.cons_append, splitScheme, if_neg hc, if_pos ha]
          rw [show c :: (bs ++ '?' :: q) = (c :: bs) ++ '?' :: q from rfl,
            splitSchemeAux_query (c :: bs) q bs]
          simp
        · simp [splitScheme, hc, ha]

lemma goURLPath_query (base q : String)
    (hb : '#' ∉ base.data) (hq : '#' ∉ q.data) (hctl : hasCtl q.data = false) :
    goURLPath (base ++ "?" ++ q) = goURLPath base := by
  have hdata : (base ++ "?" ++ q).data = base.data ++ '?' :: q.data := by
    simp [String.data_append]
  have hnofrag_b : takeUntil '#' base.data = base.data :=
    takeWhile_eq_self_of_all _ _ fun x hx => by
      simpa using fun h : x = '#' => hb (h ▸ hx)
  have hnofrag : takeUntil '#' (base.data ++ '?' :: q.data) = base.data ++ '?' :: q.data :=
    takeWhile_eq_self_of_all _ _ fun x hx => by
      rcases List.mem_append.mp hx with hx | hx
      · simpa using fun h : x = '#' => hb (h ▸ hx)
      · rcases List.mem_cons.mp hx with hx | hx
        · simp [hx]
        · simpa using fun h : x = '#' => hq (h ▸ hx)
  unfold goURLPath
  rw [hdata, hnofrag, hnofrag_b]
  have hctl_eq : hasCtl (base.data ++ '?' :: q.data) = hasCtl base.data := by
    unfold hasCtl at hctl ⊢
    rw [List.any_append, List.any_cons, hctl]
    simp
  rw [hctl_eq]
  by_cases hc : hasCtl base.data = true
  · rw [if_pos hc, if_pos hc]
  · rw [if_neg hc, if_neg hc, splitScheme_query]
    cases hsp : splitScheme base.data with
    | none => simp
    | some pr =>
        obtain ⟨found, rest0⟩ := pr
        simp only [Option.map_some']
        rw [takeUntil_append_cons]

/-! ### Claim theorems -/

/-- C6: `buildFileName` substitutes the node id for an empty node name,
normalizes to lowercase hyphen-separated form dropping every character
outside `[a-z0-9-]`, substitutes the literal `asset` for an empty
normalization, and appends an `@scale·x` suffix exactly when the scale
exceeds 1 and the format is neither `svg` nor `pdf` — i.e. it coincides
with the specification's one-pass description on every input. -/
theorem buildFileName_matches_spec (nodeName nodeID format : String) (scale : ℚ) :
    buildFileName nodeName nodeID format scale =
      buildFileNameSpec nodeName nodeID format scale := by
  have hchar : ∀ c : Char,
      ((fun c => if c = '_' then '-' else c) ∘ (fun c => if c = ' ' then '-' else c) ∘
          Char.toLower) c =
        (if Char.toLower c = ' ' ∨ Char.toLower c = '_' then '-' else Char.toLower c) := by
    intro c
    show (if (if Char.toLower c = ' ' then '-' else Char.toLower c) = '_' then '-'
        else if Char.toLower c = ' ' then '-' else Char.toLower c) = _
    by_cases h1 : Char.toLower c = ' '
    · simp [h1]
    · by_cases h2 : Char.toLower c = '_' <;> simp [h1, h2]
  unfold buildFileName buildFileNameSpec toKebabCase replaceAllChar
  simp only [List.map_map]
  have hmap : ((if nodeName = "" then nodeID else nodeName).data.map
        ((fun c => if c = '_' then '-' else c) ∘ (fun c => if c = ' ' then '-' else c) ∘
          Char.toLower)) =
      ((if nodeName = "" then nodeID else nodeName).data.map
        fun c => if Char.toLower c = ' ' ∨ Char.toLower c = '_' then '-' else Char.toLower c) :=
    List.map_congr_left fun c _ => hchar c
  rw [hmap]

/-- C7: for every node, `collectImageFills` contributes exactly one
reference for a node carrying two or more collectable image fills — the
first matching fill wins — contributes nothing for a node whose only
image-type fill has an empty image reference, and always continues the
walk into the children. -/
theorem collectImageFills_first_fill_only (n : Node) (f : Paint) :
    (2 ≤ n.fills.countP isCollectedFill → (nodeOwnFillEntry n).length = 1)
    ∧ (n.fills.find? isCollectedFill = some f →
        nodeOwnFillEntry n = [⟨n.id, n.name, f.imageRef⟩])
    ∧ ((n.fills.filter fun g => g.type = "IMAGE") = [f] → f.imageRef = "" →
        nodeOwnFillEntry n = [])
    ∧ collectImageFills n = nodeOwnFillEntry n ++ (n.children.map collectImageFills).flatten := by
  refine ⟨?_, ?_, ?_, ?_⟩
  · intro h
    have hex : ∃ g ∈ n.fills, isCollectedFill g := by
      by_contra hno
      push_neg at hno
      have h0 : n.fills.countP isCollectedFill = 0 := by
        apply List.countP_eq_zero.mpr
        intro g hg
        simpa using hno g hg
      omega
    have hsome : (n.fills.find? isCollectedFill).isSome := List.find?_isSome.mpr hex
    unfold nodeOwnFillEntry
    cases hfind : n.fills.find? isCollectedFill with
    | none => rw [hfind] at hsome; simp at hsome
    | some g => simp
  · intro h
    unfold nodeOwnFillEntry
    rw [h]
  · intro hfil href
    unfold nodeOwnFillEntry
    have hnone : n.fills.find? isCollectedFill = none := by
      rw [List.find?_eq_none]
      intro g hg hcoll
      have hty : g.type = "IMAGE" ∧ g.imageRef ≠ "" := by
        simpa [isCollectedFill] using hcoll
      have hmem : g ∈ n.fills.filter fun g => g.type = "IMAGE" :=
        List.mem_filter.mpr ⟨hg, by simp [hty.1]⟩
      rw [hfil] at hmem
      simp only [List.mem_singleton] at hmem
      exact hty.2 (hmem ▸ href)
    rw [hnone]
  · cases n with
    | mk i nm fills es children =>
        rw [collectImageFills]
        congr 1
        exact congrArg List.flatten (List.attach_map_coe children collectImageFills)

/-- C1: the claim that the final manifest never contains duplicate file
names fails on the code.  With three distinct nodes all named `A` and every
download succeeding, one `ExportImages` call produces the manifest names
`a.png`, `a-2.png`, `a-2.png`: the collision branch registers only the
rewritten name, never increments the count of the base name, so the third
node collides to the same rewritten name as the second. -/
theorem exportImages_duplicate_fileNames_bug :
    (exportImages envAllOk "key" [("1", "A"), ("2", "A"), ("3", "A")]
        ⟨"png", [1], "out"⟩).map (fun r => r.assets.map fun a => a.fileName)
      = .ok ["a.png", "a-2.png", "a-2.png"]
    ∧ ¬(["a.png", "a-2.png", "a-2.png"] : List String).Nodup := by
  exact ⟨rfl, by decide⟩

/-- Witness for the C7 theorem at concrete nodes: two collectable fills
yield exactly the first reference; a lone empty-reference image fill yields
nothing. -/
theorem collectImageFills_first_fill_only_witness :
    (nodeOwnFillEntry nodeTwoFills).length = 1
    ∧ nodeOwnFillEntry nodeTwoFills = [⟨"5:1", "Hero", "refA"⟩]
    ∧ nodeOwnFillEntry nodeEmptyRef = [] :=
  ⟨(collectImageFills_first_fill_only nodeTwoFills ⟨"IMAGE", "refA"⟩).1 (by decide),
   (collectImageFills_first_fill_only nodeTwoFills ⟨"IMAGE", "refA"⟩).2.1 (by decide),
   (collectImageFills_first_fill_only nodeEmptyRef ⟨"IMAGE", ""⟩).2.2.1 (by decide) rfl⟩

/-- C9: in `ExportImageFills` a fill node whose image reference maps to an
empty URL in the bulk response is classified exactly like a reference
absent from the response: the node goes to the unresolved list, no error
record and no asset are produced and the registry is untouched, no
download is attempted (the step does not depend on the environment), and
on a one-node input the call returns the node as its only unresolved
output. -/
theorem exportImageFills_empty_url_unresolved
    (env env' : Env) (resp : List (String × String)) (dir : String)
    (st : RunState) (n : ImageFillNode) (cfg : ExportConfig)
    (h : lookupAssoc resp n.imageRef = some "" ∨ lookupAssoc resp n.imageRef = none) :
    processFillNode env resp dir st n = { st with unresolved := st.unresolved ++ [n] }
    ∧ processFillNode env resp dir st n = processFillNode env' resp dir st n
    ∧ (env.mkdirAll cfg.outputDir = true →
        exportImageFills env resp [n] cfg = .ok ⟨[], [], [n]⟩) := by
  have hstep : ∀ (e : Env) (d : String) (s : RunState),
      processFillNode e resp d s n = { s with unresolved := s.unresolved ++ [n] } := by
    intro e d s
    unfold processFillNode
    rcases h with h | h <;> (rw [h]; try simp)
  refine ⟨hstep env dir st, (hstep env dir st).trans (hstep env' dir st).symm, ?_⟩
  intro hmk
  unfold exportImageFills
  simp [hmk, hstep, RunState.init]

/-- Witness for the C9 theorem: the concrete node whose reference maps to
the empty URL of `fillResp` ends up unresolved, with no error and no
asset. -/
theorem exportImageFills_empty_url_unresolved_witness :
    processFillNode envAllOk fillResp "out" RunState.init fillNodeEmpty =
      { RunState.init with unresolved := [fillNodeEmpty] }
    ∧ exportImageFills envAllOk fillResp [fillNodeEmpty] ⟨"png", [1], "out"⟩ =
      .ok ⟨[], [], [fillNodeEmpty]⟩ := by
  have h := exportImageFills_empty_url_unresolved envAllOk envAllOk fillResp "out"
    RunState.init fillNodeEmpty ⟨"png", [1], "out"⟩ (Or.inl (by decide))
  exact ⟨h.1, h.2.2 rfl⟩

/-- C10: in both `ExportImages` and `ExportImageFills`, the candidate file
name is registered in the collision registry before the download is
attempted, so a failed download still consumes the name: the failed entry
produces no asset, yet a later entry with the same candidate name receives
the `-2`-suffixed name. -/
theorem fileName_registered_before_download
    (env : Env) (nodes : List (String × String)) (fmt : String) (sc : ℚ) (dir : String)
    (resp : List (String × String)) (st : RunState)
    (e₁ e₂ : String × String) (n₁ n₂ : ImageFillNode) (c cF u₁ u₂ : String) :
    (e₁.2 ≠ "" → e₂.2 ≠ "" →
      buildFileName ((lookupAssoc nodes e₁.1).getD "") e₁.1 fmt sc = c →
      buildFileName ((lookupAssoc nodes e₂.1).getD "") e₂.1 fmt sc = c →
      lookupName st.usedNames c = none →
      env.download e₁.2 (joinPath dir c) = false →
      lookupName (processImageEntry env nodes fmt sc dir st e₁).usedNames c = some 1
      ∧ (processImageEntry env nodes fmt sc dir st e₁).assets = st.assets
      ∧ (env.download e₂.2
            (joinPath dir (trimSuffix c (filepathExt c) ++ "-" ++ toString 2 ++ filepathExt c)) =
            true →
          (processImageEntry env nodes fmt sc dir
              (processImageEntry env nodes fmt sc dir st e₁) e₂).assets =
            st.assets ++ [⟨e₂.1, (lookupAssoc nodes e₂.1).getD "",
              trimSuffix c (filepathExt c) ++ "-" ++ toString 2 ++ filepathExt c, fmt, sc⟩]))
    ∧ (lookupAssoc resp n₁.imageRef = some u₁ → u₁ ≠ "" →
      lookupAssoc resp n₂.imageRef = some u₂ → u₂ ≠ "" →
      buildFileName n₁.nodeName n₁.nodeID (detectExtensionFromURL u₁) 1 = cF →
      buildFileName n₂.nodeName n₂.nodeID (detectExtensionFromURL u₂) 1 = cF →
      lookupName st.usedNames cF = none →
      env.download u₁ (joinPath dir cF) = false →
      lookupName (processFillNode env resp dir st n₁).usedNames cF = some 1
      ∧ (processFillNode env resp dir st n₁).assets = st.assets
      ∧ (env.download u₂
            (joinPath dir
              (trimSuffix cF (filepathExt cF) ++ "-" ++ toString 2 ++ filepathExt cF)) = true →
          (processFillNode env resp dir (processFillNode env resp dir st n₁) n₂).assets =
            st.assets ++ [⟨n₂.nodeID, n₂.nodeName,
              trimSuffix cF (filepathExt cF) ++ "-" ++ toString 2 ++ filepathExt cF,
              (filepathExt
                (trimSuffix cF (filepathExt cF) ++ "-" ++ toString 2 ++ filepathExt cF)).drop 1,
              1⟩])) := by
  constructor
  · intro h1 h2 hc1 hc2 hfresh hdl1
    have hr1 : resolveFileName st.usedNames
        (buildFileName ((lookupAssoc nodes e₁.1).getD "") e₁.1 fmt sc) =
        (c, setAssoc st.usedNames c 1) := by
      rw [hc1]
      exact resolveFileName_fresh st.usedNames c hfresh
    have hstep1 : processImageEntry env nodes fmt sc dir st e₁ =
        { st with usedNames := setAssoc st.usedNames c 1,
                  errors := st.errors ++
                    ["failed to download " ++ (lookupAssoc nodes e₁.1).getD ""] } := by
      rw [processImageEntry_of_fail env nodes fmt sc dir st e₁ h1 (by rw [hr1]; exact hdl1),
        hr1]
    have hhit : lookupName (setAssoc st.usedNames c 1) c = some 1 :=
      lookupName_setAssoc_self st.usedNames c 1
    refine ⟨?_, ?_, ?_⟩
    · rw [hstep1]
      exact hhit
    · rw [hstep1]
    · intro hdl2
      have hr2 : resolveFileName (setAssoc st.usedNames c 1)
          (buildFileName ((lookupAssoc nodes e₂.1).getD "") e₂.1 fmt sc) =
          (trimSuffix c (filepathExt c) ++ "-" ++ toString 2 ++ filepathExt c,
           setAssoc (setAssoc st.usedNames c 1)
             (trimSuffix c (filepathExt c) ++ "-" ++ toString 2 ++ filepathExt c) 2) := by
        rw [hc2]
        exact resolveFileName_hit (setAssoc st.usedNames c 1) c 1 hhit
      rw [hstep1, processImageEntry_of_ok env nodes fmt sc dir _ e₂ h2
        (by show env.download e₂.2 (joinPath dir
              (resolveFileName (setAssoc st.usedNames c 1)
                (buildFileName ((lookupAssoc nodes e₂.1).getD "") e₂.1 fmt sc)).1) = true
            rw [hr2]
            exact hdl2)]
      show st.assets ++ [_] = st.assets ++ [_]
      rw [show (resolveFileName (setAssoc st.usedNames c 1)
          (buildFileName ((lookupAssoc nodes e₂.1).getD "") e₂.1 fmt sc)).1 =
          trimSuffix c (filepathExt c) ++ "-" ++ toString 2 ++ filepathExt c from by rw [hr2]]
  · intro hl1 h1 hl2 h2 hc1 hc2 hfresh hdl1
    have hr1 : resolveFileName st.usedNames
        (buildFileName n₁.nodeName n₁.nodeID (detectExtensionFromURL u₁) 1) =
        (cF, setAssoc st.usedNames cF 1) := by
      rw [hc1]
      exact resolveFileName_fresh st.usedNames cF hfresh
    have hstep1 : processFillNode env resp dir st n₁ =
        { st with usedNames := setAssoc st.usedNames cF 1,
                  errors := st.errors ++ ["failed to download image fill " ++ n₁.nodeName] } := by
      rw [processFillNode_of_fail env resp dir st n₁ u₁ hl1 h1 (by rw [hr1]; exact hdl1), hr1]
    have hhit : lookupName (setAssoc st.usedNames cF 1) cF = some 1 :=
      lookupName_setAssoc_self st.usedNames cF 1
    refine ⟨?_, ?_, ?_⟩
    · rw [hstep1]
      exact hhit
    · rw [hstep1]
    · intro hdl2
      have hr2 : resolveFileName (setAssoc st.usedNames cF 1)
          (buildFileName n₂.nodeName n₂.nodeID (detectExtensionFromURL u₂) 1) =
          (trimSuffix cF (filepathExt cF) ++ "-" ++ toString 2 ++ filepathExt cF,
           setAssoc (setAssoc st.usedNames cF 1)
             (trimSuffix cF (filepathExt cF) ++ "-" ++ toString 2 ++ filepathExt cF) 2) := by
        rw [hc2]
        exact resolveFileName_hit (setAssoc st.usedNames cF 1) cF 1 hhit
      rw [hstep1, processFillNode_of_ok env resp dir _ n₂ u₂ hl2 h2
        (by show env.download u₂ (joinPath dir
              (resolveFileName (setAssoc st.usedNames cF 1)
                (buildFileName n₂.nodeName n₂.nodeID (detectExtensionFromURL u₂) 1)).1) = true
            rw [hr2]
            exact hdl2)]
      show st.assets ++ [_] = st.assets ++ [_]
      rw [show (resolveFileName (setAssoc st.usedNames cF 1)
          (buildFileName n₂.nodeName n₂.nodeID (detectExtensionFromURL u₂) 1)).1 =
          trimSuffix cF (filepathExt cF) ++ "-" ++ toString 2 ++ filepathExt cF from by rw [hr2]]

/-- Witness for the C10 theorem at concrete inputs: the failed first
download consumes `dup.png`, the second same-named entry receives
`dup-2.png`, on both the render side and the fill side. -/
theorem fileName_registered_before_download_witness :
    ((processImageEntry envC10 [("1", "Dup"), ("2", "Dup")] "png" 1 "out"
        RunState.init ("1", "u1")).assets = []
      ∧ (processImageEntry envC10 [("1", "Dup"), ("2", "Dup")] "png" 1 "out"
          (processImageEntry envC10 [("1", "Dup"), ("2", "Dup")] "png" 1 "out"
            RunState.init ("1", "u1")) ("2", "u2")).assets =
        [⟨"2", "Dup", "dup-2.png", "png", 1⟩])
    ∧ ((processFillNode envC10 [("r1", "https://fills.example/a.png"),
          ("r2", "https://fills.example/b.png")] "out" RunState.init fillN1).assets = []
      ∧ (processFillNode envC10 [("r1", "https://fills.example/a.png"),
          ("r2", "https://fills.example/b.png")] "out"
          (processFillNode envC10 [("r1", "https://fills.example/a.png"),
            ("r2", "https://fills.example/b.png")] "out" RunState.init fillN1)
          fillN2).assets = [⟨"2", "Dup", "dup-2.png", "png", 1⟩]) := by
  have hA := (fileName_registered_before_download envC10 [("1", "Dup"), ("2", "Dup")]
    "png" 1 "out" [] RunState.init ("1", "u1") ("2", "u2") fillN1 fillN2
    "dup.png" "dup.png" "u" "u").1 (by decide) (by decide) rfl rfl rfl rfl
  have hB := (fileName_registered_before_download envC10 []
    "png" 1 "out" [("r1", "https://fills.example/a.png"), ("r2", "https://fills.example/b.png")]
    RunState.init ("1", "u1") ("2", "u2") fillN1 fillN2 "dup.png" "dup.png"
    "https://fills.example/a.png" "https://fills.example/b.png").2
    rfl (by decide) rfl (by decide) rfl rfl rfl rfl
  exact ⟨⟨hA.2.1, hA.2.2 rfl⟩, ⟨hB.2.1, hB.2.2 rfl⟩⟩

/-- C5: for an export whose format is `svg` or `pdf`, the scale list is
forced to exactly `[1]`, a request of at most one batch performs exactly
one render pass — at scale 1 — `buildFileName` never varies with the
requested scale (so no `@2x`/`@3x` suffix is ever produced), and every
asset `ExportImages` returns carries scale 1. -/
theorem vector_formats_single_scale (cfg : ExportConfig)
    (h : cfg.format = "svg" ∨ cfg.format = "pdf") :
    effectiveScales cfg = [1]
    ∧ (∀ ids : List String, ids ≠ [] → ids.length ≤ maxNodesPerRequest →
        renderCalls ids (effectiveScales cfg) = [(ids, 1)])
    ∧ (∀ nm nid : String, ∀ s : ℚ,
        buildFileName nm nid cfg.format s = buildFileName nm nid cfg.format 1)
    ∧ (∀ (env : Env) (fk : String) (nodes : List (String × String)) (res : ExportResult),
        exportImages env fk nodes cfg = .ok res → ∀ a ∈ res.assets, a.scale = 1) := by
  have hsc : effectiveScales cfg = [1] := by
    rcases h with h | h <;> simp [effectiveScales, h]
  refine ⟨hsc, ?_, ?_, ?_⟩
  · intro ids hne hlen
    rw [hsc]
    simp [renderCalls, batches_small ids hne hlen]
  · intro nm nid s
    rcases h with h | h <;> simp [buildFileName, h]
  · intro env fk nodes res hok a ha
    unfold exportImages at hok
    by_cases hmk : env.mkdirAll cfg.outputDir
    · rw [if_neg (by simpa using hmk)] at hok
      cases hfold : List.foldlM (renderCallStep env fk nodes cfg) RunState.init
          (renderCalls (nodes.map (·.1)) (effectiveScales cfg)) with
      | error e =>
          rw [hfold] at hok
          simp [Except.map] at hok
      | ok st' =>
          rw [hfold] at hok
          simp only [Except.map, Except.ok.injEq] at hok
          have ha' : a ∈ st'.assets := by
            rw [← hok] at ha
            exact ha
          rcases foldlM_renderCalls_assets_scale env fk nodes cfg _ RunState.init st'
            hfold a ha' with h1 | h1
          · simp [RunState.init] at h1
          · obtain ⟨call, hc, hsc'⟩ := h1
            rw [hsc] at hc
            have : call.2 = 1 := by
              simp only [renderCalls, List.map_cons, List.map_nil, List.flatten] at hc
              simp at hc
              obtain ⟨b, _, hb⟩ := hc
              rw [← hb]
            rw [hsc', this]
    · rw [if_pos (by simpa using hmk)] at hok
      exact absurd hok (by simp)

/-- Witness for the C5 theorem with format `svg` and requested scales
`[1, 2, 3]`: one render pass at scale 1, no scale suffix at scale 3, and a
concrete run whose only asset has scale 1. -/
theorem vector_formats_single_scale_witness :
    effectiveScales ⟨"svg", [1, 2, 3], "out"⟩ = [1]
    ∧ renderCalls ["7:1"] (effectiveScales ⟨"svg", [1, 2, 3], "out"⟩) = [(["7:1"], 1)]
    ∧ buildFileName "Icon" "7:1" "svg" 3 = buildFileName "Icon" "7:1" "svg" 1
    ∧ (⟨"7:1", "Icon", "icon.svg", "svg", 1⟩ : ExportedAsset).scale = 1 :=
  ⟨(vector_formats_single_scale ⟨"svg", [1, 2, 3], "out"⟩ (Or.inl rfl)).1,
   (vector_formats_single_scale ⟨"svg", [1, 2, 3], "out"⟩ (Or.inl rfl)).2.1
     ["7:1"] (by decide) (by decide),
   (vector_formats_single_scale ⟨"svg", [1, 2, 3], "out"⟩ (Or.inl rfl)).2.2.1 "Icon" "7:1" 3,
   (vector_formats_single_scale ⟨"svg", [1, 2, 3], "out"⟩ (Or.inl rfl)).2.2.2
     envAllOk "k" [("7:1", "Icon")]
     ⟨[⟨"7:1", "Icon", "icon.svg", "svg", 1⟩], [], []⟩ rfl
     ⟨"7:1", "Icon", "icon.svg", "svg", 1⟩ (List.mem_singleton.mpr rfl)⟩

/-- C3: when a single render batch succeeds at the API level and the
outcome of each transfer depends only on its URL, `ExportImages` returns no
top-level error, the assets are exactly the batch entries with a non-empty
URL and a successful transfer — in order — and the error records count
exactly the entries with an empty URL or a failed transfer. -/
theorem exportImages_partial_failure_soft
    (env : Env) (fk : String) (nodes : List (String × String)) (cfg : ExportConfig)
    (s : ℚ) (images : List (String × String)) (dl : String → Bool)
    (hmk : env.mkdirAll cfg.outputDir = true)
    (hsc : effectiveScales cfg = [s])
    (hne : nodes ≠ []) (hlen : nodes.length ≤ maxNodesPerRequest)
    (hg : env.getImages fk (nodes.map fun e => e.1) cfg.format s = .ok images)
    (hdl : ∀ u d, env.download u d = dl u) :
    ∃ res, exportImages env fk nodes cfg = .ok res
      ∧ (res.assets.map fun a => a.nodeID) =
          ((images.filter fun e => !(e.2 = "" : Bool) && dl e.2).map fun e => e.1)
      ∧ res.errors.length = images.countP fun e => (e.2 = "" : Bool) || !dl e.2 := by
  have hids : (nodes.map fun e => e.1) ≠ [] := by simpa using hne
  have hidlen : (nodes.map fun e => e.1).length ≤ maxNodesPerRequest := by simpa using hlen
  have hcalls : renderCalls (nodes.map fun e => e.1) (effectiveScales cfg) =
      [((nodes.map fun e => e.1), s)] := by
    rw [hsc]
    simp [renderCalls, batches_small _ hids hidlen]
  have hrun : exportImages env fk nodes cfg = .ok
      ⟨(images.foldl (processImageEntry env nodes cfg.format s cfg.outputDir)
          RunState.init).assets,
       (images.foldl (processImageEntry env nodes cfg.format s cfg.outputDir)
          RunState.init).errors,
       (images.foldl (processImageEntry env nodes cfg.format s cfg.outputDir)
          RunState.init).unresolved⟩ := by
    unfold exportImages
    rw [if_neg (by simp [hmk])]
    rw [show (nodes.map (·.1)) = (nodes.map fun e => e.1) from rfl, hcalls,
      List.foldlM_cons]
    unfold renderCallStep
    rw [hg]
    simp [Bind.bind, Except.bind, List.foldlM_nil, Except.map, pure, Except.pure]
  obtain ⟨h1, h2⟩ := foldl_processImageEntry_spec env nodes cfg.format s cfg.outputDir dl hdl
    images RunState.init
  refine ⟨_, hrun, ?_, ?_⟩
  · simpa [RunState.init] using h1
  · simpa [RunState.init] using h2

/-- Witness for the C3 theorem at the spec's scenario: five export-flagged
nodes, four URLs and one empty string, four assets, exactly one error
record, no top-level error. -/
theorem exportImages_partial_failure_soft_witness :
    ∃ res, exportImages envC3 "k"
        [("1", "N1"), ("2", "N2"), ("3", "N3"), ("4", "N4"), ("5", "N5")]
        ⟨"png", [1], "out"⟩ = .ok res
      ∧ (res.assets.map fun a => a.nodeID) = ["1", "2", "3", "4"]
      ∧ res.errors.length = 1 := by
  obtain ⟨res, hr, ha, he⟩ := exportImages_partial_failure_soft envC3 "k"
    [("1", "N1"), ("2", "N2"), ("3", "N3"), ("4", "N4"), ("5", "N5")]
    ⟨"png", [1], "out"⟩ 1
    [("1", "u1"), ("2", "u2"), ("3", "u3"), ("4", "u4"), ("5", "")]
    (fun _ => true) rfl rfl (by decide) (by decide) rfl (fun _ _ => rfl)
  exact ⟨res, hr, ha.trans (by decide), he.trans (by decide)⟩

/-- C2: after the final reconciliation a successful pipeline run contains
no non-screenshot asset whose node ID or node name matches the screenshot
set, every asset carrying a screenshot node ID is flagged as a screenshot,
and the removed files are exactly the files of the assets the
reconciliation dropped. -/
theorem pipeline_screenshot_reconciliation
    (env : Env) (fk fmt : String) (scales : List ℚ) (dir : String)
    (ss en : List (String × String)) (fillsC : List ImageFillNode)
    (out : List AssetInfo × List String)
    (hok : exportImagesPipeline env fk fmt scales dir ss en fillsC = .ok out) :
    (∀ a ∈ out.1, a.isScreenshot = false → matchesScreenshot ss a = false)
    ∧ (∀ a ∈ out.1, a.nodeID ∈ ss.map (fun e => e.1) → a.isScreenshot = true)
    ∧ ∃ pre : List AssetInfo, out.1 = pre.filter (fun a => !droppedByReconcile ss a)
        ∧ out.2 = (pre.filter fun a => droppedByReconcile ss a).map
            fun a => joinPath dir a.fileName := by
  unfold exportImagesPipeline at hok
  cases hph : pipelinePhases env fk fmt scales dir ss en fillsC with
  | error e =>
      rw [hph] at hok
      simp [Except.map] at hok
  | ok pre =>
      rw [hph] at hok
      simp only [Except.map, Except.ok.injEq] at hok
      have hout : out = (pre.filter fun a => !droppedByReconcile ss a,
          (pre.filter fun a => droppedByReconcile ss a).map
            fun a => joinPath dir a.fileName) := by
        rw [← hok, reconcileAssets_spec]
      refine ⟨?_, ?_, ⟨pre, ?_, ?_⟩⟩
      · intro a ha hnoss
        rw [hout] at ha
        have hkeep := (List.mem_filter.mp ha).2
        simp only [droppedByReconcile, hnoss, Bool.not_false, Bool.true_and,
          Bool.not_eq_true'] at hkeep
        exact hkeep
      · intro a ha hid
        rw [hout] at ha
        have hkeep := (List.mem_filter.mp ha).2
        have hmatch : matchesScreenshot ss a = true := by
          obtain ⟨e, he, heq⟩ := List.mem_map.mp hid
          apply Bool.or_eq_true_iff.mpr
          left
          exact List.any_eq_true.mpr ⟨e, he, by simp [heq]⟩
        simp only [droppedByReconcile, hmatch, Bool.and_true, Bool.not_eq_true'] at hkeep
        simpa using hkeep
      · rw [hout]
      · rw [hout]

/-- Witness for the C2 theorem: a run whose screenshot set is the root
`Page` and whose export-flagged node `2:2` is also named `Page`; the run
keeps only the screenshot asset, the duplicate's file is removed, and the
kept asset carrying the screenshot node ID is flagged as a screenshot. -/
theorem pipeline_screenshot_reconciliation_witness :
    exportImagesPipeline envAllOk "k" "png" [1] "out" [("0:1", "Page")] [("2:2", "Page")] []
      = .ok ([⟨"0:1", "Page", "complete_design_screenshot.png", "png", 1, true⟩],
          ["out/page.png"])
    ∧ (⟨"0:1", "Page", "complete_design_screenshot.png", "png", 1, true⟩ :
        AssetInfo).isScreenshot = true :=
  ⟨rfl,
   (pipeline_screenshot_reconciliation envAllOk "k" "png" [1] "out" [("0:1", "Page")]
      [("2:2", "Page")] []
      ([⟨"0:1", "Page", "complete_design_screenshot.png", "png", 1, true⟩],
        ["out/page.png"]) rfl).2.1
     ⟨"0:1", "Page", "complete_design_screenshot.png", "png", 1, true⟩
     (by simp) (by simp)⟩

/-- C4: under a valid configuration, a terminal render-call error in
Phase 1 (non-empty export-flagged set) aborts the whole run with the
wrapped error, whereas with no Phase-1 work, a failing bulk endpoint and a
non-empty fill set, a terminal error of the same rendering path inside the
Phase-2b fallback leaves the run successful. -/
theorem pipeline_phase1_fatal_phase2b_nonfatal
    (env : Env) (fk fmt : String) (scales : List ℚ) (dir : String)
    (ss en : List (String × String)) (fillsC : List ImageFillNode)
    (e₁ e₂ e₃ : String)
    (hvf : validFormat fmt = true)
    (hps : (scales.any fun s => s ≤ 0) = false) :
    (en ≠ [] → exportImages env fk en ⟨fmt, scales, dir⟩ = .error e₁ →
      exportImagesPipeline env fk fmt scales dir ss en fillsC
        = .error ("export images: " ++ e₁))
    ∧ (en = [] → env.getFileImages fk = .error e₂ →
      (fillsC.filter fun f => !(ss.any fun s => s.1 = f.nodeID)) ≠ [] →
      exportImages env fk
          ((imageFillNodesToMap (fillsC.filter fun f => !(ss.any fun s => s.1 = f.nodeID))).filter
            fun p => !(ss.any fun s => s.1 = p.1)) ⟨fmt, scales, dir⟩ = .error e₃ →
      (exportImagesPipeline env fk fmt scales dir ss en fillsC).isOk = true) := by
  constructor
  · intro hen h1
    have hp1 : phase1Assets env fk ⟨fmt, scales, dir⟩ en
        (phase0Assets env fk fmt dir ss) = .error ("export images: " ++ e₁) := by
      unfold phase1Assets
      rw [if_neg hen, h1]
    unfold exportImagesPipeline pipelinePhases
    rw [if_neg (by simp [hvf]), if_neg (by simp [hps]), hp1]
    simp [Except.map]
  · intro hen h2 hfills h3
    have hp1 : phase1Assets env fk ⟨fmt, scales, dir⟩ en
        (phase0Assets env fk fmt dir ss) = .ok (phase0Assets env fk fmt dir ss) := by
      unfold phase1Assets
      rw [if_pos hen]
    have hp2b : phase2b env fk ss ⟨fmt, scales, dir⟩ (phase0Assets env fk fmt dir ss)
        (fillsC.filter fun f => !(ss.any fun s => s.1 = f.nodeID)) =
        phase0Assets env fk fmt dir ss := by
      simp only [phase2b]
      simp [hfills, h3]
    have hp2 : phase2Assets env fk ss ⟨fmt, scales, dir⟩
        (fillsC.filter fun f => !(ss.any fun s => s.1 = f.nodeID))
        (phase0Assets env fk fmt dir ss) = .ok (phase0Assets env fk fmt dir ss) := by
      simp only [phase2Assets]
      simp [hfills, h2, hp2b]
    unfold exportImagesPipeline pipelinePhases
    rw [if_neg (by simp [hvf]), if_neg (by simp [hps]), hp1]
    simp [hp2, Except.map, Except.isOk, Except.toBool]

/-- Witness for the C4 theorem in the failing environment `envC4`: the
Phase-1 render error aborts the run with the wrapped message, while the
same terminal render error inside the Phase-2b fallback leaves the run
successful. -/
theorem pipeline_phase1_fatal_phase2b_nonfatal_witness :
    exportImagesPipeline envC4 "k" "png" [1] "out" [] [("2:2", "Header")] []
      = .error ("export images: " ++ "failed to get images from Figma API: boom")
    ∧ (exportImagesPipeline envC4 "k" "png" [1] "out" [] []
        [⟨"3:3", "Photo", "r9"⟩]).isOk = true :=
  ⟨(pipeline_phase1_fatal_phase2b_nonfatal envC4 "k" "png" [1] "out" [] [("2:2", "Header")]
      [] "failed to get images from Figma API: boom" "" "" rfl rfl).1 (by decide) rfl,
   (pipeline_phase1_fatal_phase2b_nonfatal envC4 "k" "png" [1] "out" [] []
      [⟨"3:3", "Photo", "r9"⟩] "" "bulk down"
      "failed to get images from Figma API: boom" rfl rfl).2 rfl rfl (by decide) rfl⟩

/-- C8: `detectExtensionFromURL` answers `png` for the empty string, for a
string the URL parser rejects, and for a parsed path without an extension;
otherwise it answers the path's extension with the leading dot stripped;
and appending a well-formed query string does not change the answer. -/
theorem detectExtensionFromURL_contract (s base q p : String) :
    detectExtensionFromURL "" = "png"
    ∧ (goURLPath s = none → detectExtensionFromURL s = "png")
    ∧ (goURLPath s = some p → filepathExt p = "" → detectExtensionFromURL s = "png")
    ∧ (goURLPath s = some p → filepathExt p ≠ "" →
        detectExtensionFromURL s = (filepathExt p).drop 1)
    ∧ ('#' ∉ base.data → '#' ∉ q.data → hasCtl q.data = false →
        detectExtensionFromURL (base ++ "?" ++ q) = detectExtensionFromURL base) := by
  refine ⟨rfl, ?_, ?_, ?_, ?_⟩
  · intro h
    unfold detectExtensionFromURL
    rw [h]
  · intro h he
    unfold detectExtensionFromURL
    rw [h]
    simp [he]
  · intro h he
    unfold detectExtensionFromURL
    rw [h]
    simp [he]
  · intro h1 h2 h3
    unfold detectExtensionFromURL
    rw [goURLPath_query base q h1 h2 h3]

/-- Witness for the C8 theorem at concrete URLs: the empty string, a string
with a control character, an extension-less path, a URL with both an
extension and a query, and query invariance on that URL. -/
theorem detectExtensionFromURL_contract_witness :
    detectExtensionFromURL "" = "png"
    ∧ detectExtensionFromURL "ht\x01tp://x/a.jpg" = "png"
    ∧ detectExtensionFromURL "https://x/noext" = "png"
    ∧ detectExtensionFromURL "https://cdn.example.com/img/photo.jpg?token=abc" = "jpg"
    ∧ detectExtensionFromURL ("https://cdn.example.com/img/photo.jpg" ++ "?" ++ "token=abc")
      = detectExtensionFromURL "https://cdn.example.com/img/photo.jpg" := by
  refine ⟨(detectExtensionFromURL_contract "" "" "" "").1,
    (detectExtensionFromURL_contract "ht\x01tp://x/a.jpg" "" "" "").2.1 (by decide),
    (detectExtensionFromURL_contract "https://x/noext" "" "" "/noext").2.2.1
      (by decide) (by decide),
    ((detectExtensionFromURL_contract "https://cdn.example.com/img/photo.jpg?token=abc"
      "" "" "/img/photo.jpg").2.2.2.1 (by decide) (by decide)).trans (by decide),
    (detectExtensionFromURL_contract "" "https://cdn.example.com/img/photo.jpg"
      "token=abc" "").2.2.2.2 (by decide) (by decide) (by decide)⟩

end FigmaExtractor
